import Mathlib

/-!
Shallow embedding of the Lianjia-crawler pipeline
(`src/main.py`, `src/detail_scraper.py`) and proofs about it.

Python strings are modelled as Lean `String`; Python dicts keyed by
strings are modelled as insertion-ordered association lists with
Python's assignment semantics (update in place if the key is present,
append otherwise).  Python `None` is modelled by `Option`.  Raised
exceptions are modelled with `Except`.  Network I/O is modelled by an
explicit list of per-attempt outcomes fed to the fetch loops.
-/

namespace Lianjia

/-- Python `needle in haystack` (substring containment), on char lists. -/
def containsSub (needle hay : String) : Bool :=
  go needle.toList hay.toList
where
  go (n : List Char) : List Char → Bool
    | [] => n.isEmpty
    | c :: rest => n.isPrefixOf (c :: rest) || go n rest

/-- Anti-Bot Guard of `detail_scraper.request_detail`: the body is blocked
iff it contains one of the two block-signature substrings. -/
def isBlocked (body : String) : Bool :=
  containsSub "访问验证" body || containsSub "请开启JavaScript" body

/-- Python `str.strip()`: drop whitespace from both ends. -/
def pyStrip (s : String) : String :=
  String.mk (((s.toList.dropWhile Char.isWhitespace).reverse.dropWhile
    Char.isWhitespace).reverse)

/-- A Python `dict[str, str]` as an insertion-ordered association list. -/
abbrev Dict := List (String × String)

/-- Python `d[k]` lookup returning `none` when the key is absent. -/
def dictGet (d : Dict) (k : String) : Option String :=
  (d.find? (fun p => p.1 == k)).map (·.2)

/-- Python `d[k] = v`: replace the value at the first occurrence of `k`,
or append `(k, v)` when `k` is absent. -/
def dictSet : Dict → String → String → Dict
  | [], k, v => [(k, v)]
  | p :: rest, k, v => if p.1 == k then (k, v) :: rest else p :: dictSet rest k v

/-! ## `main.categorise` -/

/-- The `features` keyword table of `main.categorise`. -/
def FEATURES : List (String × List String) :=
  [("configuration", ["室", "厅"]),
   ("area", ["平米"]),
   ("towards", ["东", "南", "西", "北"]),
   ("decorate", ["精装", "简装", "毛坯"]),
   ("storey", ["层"]),
   ("period", ["年"]),
   ("categorie", ["板塔结合", "板楼", "塔楼"])]

/-- Innermost loop of `main.categorise`: `for value in values: if value in
detail: res[key] = detail`. -/
def kwFold (key : String) (kws : List String) (detail : String) (res : Dict) : Dict :=
  kws.foldl (fun res v => if containsSub v detail then dictSet res key detail else res) res

/-- Middle loop of `main.categorise`: `for key, values in features.items()`. -/
def featsFold (feats : List (String × List String)) (detail : String) (res : Dict) : Dict :=
  feats.foldl (fun res kv => kwFold kv.1 kv.2 detail res) res

/-- One iteration of the outer loop of `main.categorise`: process one
pipe-separated segment against every feature keyword. -/
def categoriseStep (res : Dict) (detail : String) : Dict :=
  featsFold FEATURES detail res

/-- `main.categorise` on a list of segments (the Python body iterates
`for detail in details: ...`, building up the `res` dict). -/
def categorise (details : List String) : Dict :=
  details.foldl categoriseStep []

/-- A segment matches an attribute iff it contains one of its keywords
(Python `value in detail` over the keyword list). -/
def matchesFeature (kws : List String) (detail : String) : Bool :=
  kws.any (fun v => containsSub v detail)

/-! ## Fetch loops: `main.get_html` and `detail_scraper.request_detail`

One network attempt either raises a `requests.RequestException` (`exc`)
or yields a response with a status code and a decoded body (`resp`).
A fetch loop with `retries` attempts consumes a list of `retries`
per-attempt outcomes; the pair returned is (result, attempts performed). -/

inductive Outcome where
  | exc (e : String)
  | resp (status : Nat) (body : String)
deriving DecidableEq

inductive DetailFetchResult where
  | ok (body : String)
  | blocked
  | raisedExc (e : String)
  | exhausted
deriving DecidableEq

/-- The retry loop of `detail_scraper.request_detail` (lines 83-104),
threading Python's `last_exc`.  A 200 non-empty body that the Guard
classifies as blocked raises `RuntimeError`, which is not a
`requests.RequestException` and therefore escapes the `except` clause
immediately; every other failure sleeps and continues.  After the loop,
the last network exception is re-raised if one occurred, else a generic
`RuntimeError` is raised. -/
def rdRun : List Outcome → Option String → DetailFetchResult × Nat
  | [], some e => (.raisedExc e, 0)
  | [], none => (.exhausted, 0)
  | .exc e :: rest, _ =>
    let r := rdRun rest (some e)
    (r.1, r.2 + 1)
  | .resp s b :: rest, lastExc =>
    if s = 200 ∧ b ≠ "" then
      if isBlocked b then (.blocked, 1) else (.ok b, 1)
    else
      let r := rdRun rest lastExc
      (r.1, r.2 + 1)

/-- `detail_scraper.request_detail` run on a list of per-attempt outcomes
(`outs.length` plays the role of `retries`); `last_exc` starts as `None`. -/
def request_detail (outs : List Outcome) : DetailFetchResult × Nat :=
  rdRun outs none

inductive HtmlFetchResult where
  | ok (body : String)
  | raisedExc (e : String)
  | exhausted
deriving DecidableEq

/-- The error `get_html` re-raises for a given failing attempt outcome:
the network exception itself, or the `HTTPError` from `raise_for_status`. -/
def ghErr : Outcome → String
  | .exc e => e
  | .resp s _ => "HTTPError " ++ toString s

/-- The retry loop of `main.get_html` (lines 67-83): any exception
(network failure, or the `HTTPError` that `raise_for_status` raises
exactly for client/server error statuses 400-599) is caught and retried
except on the last attempt, where it is re-raised; any other response —
status below 400 or at/above 600 — returns `response.text` at once (no
emptiness or Guard check).  The trailing `raise RuntimeError` is
reached only when `retries` is zero. -/
def ghRun : List Outcome → HtmlFetchResult × Nat
  | [] => (.exhausted, 0)
  | .exc e :: rest =>
    if rest.isEmpty then (.raisedExc e, 1)
    else
      let r := ghRun rest
      (r.1, r.2 + 1)
  | .resp s b :: rest =>
    if 400 ≤ s ∧ s < 600 then
      if rest.isEmpty then (.raisedExc ("HTTPError " ++ toString s), 1)
      else
        let r := ghRun rest
        (r.1, r.2 + 1)
    else (.ok b, 1)

/-- `main.get_html` run on a list of per-attempt outcomes. -/
def get_html (outs : List Outcome) : HtmlFetchResult × Nat :=
  ghRun outs

/-- The spec's success condition for one attempt: HTTP 200, non-empty
body, and the Guard classifies the body as not blocked. -/
def isSuccessOutcome : Outcome → Bool
  | .exc _ => false
  | .resp s b => decide (s = 200 ∧ b ≠ "") && !(isBlocked b)

/-- An attempt outcome that `get_html` treats as a failure: an exception
or a status in `raise_for_status`'s error range 400-599. -/
def ghFail : Outcome → Bool
  | .exc _ => true
  | .resp s _ => decide (400 ≤ s ∧ s < 600)

/-- An attempt outcome that `request_detail` treats as a failed attempt
to sleep over and retry: an exception, a non-200 status, or an empty
body (a blocked 200 body is not of this kind: it raises instead). -/
def rdFailNB : Outcome → Bool
  | .exc _ => true
  | .resp s b => !(decide (s = 200 ∧ b ≠ ""))

/-- Python's `last_exc` after folding the attempt outcomes of the list
over an initial value. -/
def lastExcOut (acc : Option String) : List Outcome → Option String
  | [] => acc
  | .exc e :: rest => lastExcOut (some e) rest
  | .resp _ _ :: rest => lastExcOut acc rest

/-- Concrete attempt outcomes for the C1 counterexample: the first
attempt yields a 200 response whose body carries a block signature, and
two further attempts with good bodies would be available. -/
def c1Outs : List Outcome :=
  [.resp 200 "访问验证", .resp 200 "good page", .resp 200 "good page"]

/-- Concrete attempt outcomes for the C6 counterexample: every attempt
returns a 200 response whose body is blocked, i.e. per the spec's success
condition every attempt fails. -/
def c6Outs : List Outcome :=
  [.resp 200 "访问验证", .resp 200 "访问验证", .resp 200 "访问验证"]

/-! ## Warm-up behaviour of `request_detail` (lines 61-81)

One call to `request_detail` is described by the scheme+host string its
URL parses to (`f"{parsed.scheme}://{parsed.netloc}"`), the outcome the
warm-up GET would have if issued, and the outcomes of the retry loop's
attempts.  The module-level `request_detail._prewarmed` set is threaded
explicitly as a list of domains. -/

structure CallSpec where
  domain : String
  warmupOutcome : Outcome
  outcomes : List Outcome

/-- The `try: session.get(referer, ...) except requests.RequestException:
pass` block.  `session.get` signals failures as `requests.RequestException`
(modelled by `Outcome.exc`), which the clause swallows; a response is
discarded.  So the warm-up never propagates an error. -/
def warmupStep : Outcome → Except String Unit
  | .exc _ => .ok ()
  | .resp _ _ => .ok ()

/-- One `request_detail` call including its warm-up preamble: if the
domain is not yet prewarmed, run the warm-up (whose exception, were it to
escape, would abort the call), then add the domain to the set regardless
of the warm-up's outcome.  Returns the fetch result, the new prewarmed
set, and whether a warm-up GET was issued. -/
def request_detail_call (prewarmed : List String) (c : CallSpec) :
    Except String ((DetailFetchResult × Nat) × List String × Bool) :=
  if c.domain ∈ prewarmed then
    .ok (request_detail c.outcomes, prewarmed, false)
  else
    match warmupStep c.warmupOutcome with
    | .error e => .error e
    | .ok _ => .ok (request_detail c.outcomes, prewarmed ++ [c.domain], true)

/-- A sequence of `request_detail` calls in one process, threading the
prewarmed set; the log records (domain, warm-up issued?, fetch result)
per call. -/
def processCalls : List CallSpec → List String →
    List (String × Bool × DetailFetchResult × Nat) × List String
  | [], st => ([], st)
  | c :: rest, st =>
    match request_detail_call st c with
    | .error _ => ([], st)
    | .ok (res, st', issued) =>
      let r := processCalls rest st'
      ((c.domain, issued, res) :: r.1, r.2)

/-- How many warm-up GETs the log records for a given domain. -/
def warmupCount (d : String) : List (String × Bool × DetailFetchResult × Nat) → Nat
  | [] => 0
  | e :: rest => (if e.1 = d ∧ e.2.1 = true then 1 else 0) + warmupCount d rest

/-! ## `main.extract`: listing extraction

A listing `<li>` node is abstracted as the text/attribute lists its eight
xpath queries return.  The three `re.search` patterns over the follow
text are implemented as leftmost-match scanners. -/

/-- Leftmost-position matcher for `(\d+)\s*LIT` at the head of a char
list: a maximal non-empty digit run, optional whitespace, then the
literal; returns capture group 1 (the digits). -/
def matchNumThen (lit : List Char) (cs : List Char) : Option String :=
  let ds := cs.takeWhile Char.isDigit
  let rest := cs.dropWhile Char.isDigit
  if ds.isEmpty then none
  else if lit.isPrefixOf (rest.dropWhile Char.isWhitespace) then some (String.mk ds)
  else none

/-- `re.search(r'(\d+)\s*人关注', text)`, scanning left to right. -/
def searchFollow : List Char → Option String
  | [] => none
  | c :: cs =>
    match matchNumThen "人关注".toList (c :: cs) with
    | some r => some r
    | none => searchFollow cs

/-- `re.search(r'共(\d+)\s*次带看', text)`, scanning left to right. -/
def searchVisit : List Char → Option String
  | [] => none
  | c :: cs =>
    match (if c = '共' then matchNumThen "次带看".toList cs else none) with
    | some r => some r
    | none => searchVisit cs

/-- Try the publish-recency alternation at one position:
`\d+天(?:以前|以内)发布`, then `今天发布`, then `刚刚发布`. -/
def matchPublishAt (cs : List Char) : Option String :=
  let ds := cs.takeWhile Char.isDigit
  let rest := cs.dropWhile Char.isDigit
  if ¬ ds.isEmpty ∧ "天以前发布".toList.isPrefixOf rest then
    some (String.mk ds ++ "天以前发布")
  else if ¬ ds.isEmpty ∧ "天以内发布".toList.isPrefixOf rest then
    some (String.mk ds ++ "天以内发布")
  else if "今天发布".toList.isPrefixOf cs then some "今天发布"
  else if "刚刚发布".toList.isPrefixOf cs then some "刚刚发布"
  else none

/-- `re.search(r'((?:\d+天(?:以前|以内)发布)|今天发布|刚刚发布)', text)`. -/
def searchPublish : List Char → Option String
  | [] => none
  | c :: cs =>
    match matchPublishAt (c :: cs) with
    | some r => some r
    | none => searchPublish cs

/-- One `li` node of the results page, as the lists of strings returned
by the eight xpath queries `extract` issues against it. -/
structure ListingItem where
  titleTexts : List String
  locationTexts : List String
  addressTexts : List String
  totalPriceTexts : List String
  unitPriceAttrs : List String
  linkAttrs : List String
  followTexts : List String
  tagTexts : List String
deriving DecidableEq

/-- The per-listing record `extract` appends to `infos`. -/
structure InfoRec where
  title : Option String
  location : String
  details : Dict
  total_price : Option String
  unit_price : Option String
  follow_count : Option String
  visit_count : Option String
  publish_time : Option String
  tags : List String
  follow_info : String
  link : Option String
deriving DecidableEq

/-- `main.categorise` as called from `extract`: on a missing address
blob, `details` is `None`, and `for detail in details:` raises
`TypeError`. -/
def categoriseChecked : Option (List String) → Except String Dict
  | none => .error "TypeError: NoneType object is not iterable"
  | some l => .ok (categorise l)

/-- The body of `extract`'s per-`li` loop (lines 117-190 of `main.py`). -/
def extractItem (li : ListingItem) : Except String InfoRec :=
  let title := li.titleTexts.head?
  let location := String.intercalate ", " li.locationTexts
  let details := li.addressTexts.head?.map (fun s => s.splitOn " | ")
  let total_price := li.totalPriceTexts.head?.map (fun s => s ++ " 万")
  let unit_price := li.unitPriceAttrs.head?.map (fun s => s ++ " 元")
  let jump_link := li.linkAttrs.head?
  let follow_text := String.intercalate " / "
      ((li.followTexts.map pyStrip).filter (fun s => s ≠ ""))
  let follow_count := if follow_text ≠ "" then searchFollow follow_text.toList else none
  let visit_count := if follow_text ≠ "" then searchVisit follow_text.toList else none
  let publish_time := if follow_text ≠ "" then searchPublish follow_text.toList else none
  let tags := (li.tagTexts.map pyStrip).filter (fun s => s ≠ "")
  match categoriseChecked details with
  | .error e => .error e
  | .ok dd =>
    .ok { title := title, location := location, details := dd,
          total_price := total_price, unit_price := unit_price,
          follow_count := follow_count, visit_count := visit_count,
          publish_time := publish_time, tags := tags,
          follow_info := follow_text, link := jump_link }

/-- `main.extract`: a page is `none` when `etree.HTML` raised (caught,
`return None`), else the list of `li` nodes found.  Zero nodes also
`return None`; otherwise the items are processed in order, a raised
exception propagating out of `extract`. -/
def extract (page : Option (List ListingItem)) :
    Except String (Option (List InfoRec)) :=
  match page with
  | none => .ok none
  | some liList =>
    if liList.isEmpty then .ok none
    else (liList.mapM extractItem).map some

/-- A concrete listing item whose address/detail div is absent (the
pipe-delimited blob xpath returns no text node); all other fields are
present. -/
def c2Item : ListingItem :=
  { titleTexts := ["精装两居室"],
    locationTexts := ["某小区", "某区域"],
    addressTexts := [],
    totalPriceTexts := ["500"],
    unitPriceAttrs := ["55000"],
    linkAttrs := ["https://bj.lianjia.com/ershoufang/101.html"],
    followTexts := ["3人关注 / 共2次带看 / 今天发布"],
    tagTexts := ["近地铁"] }

/-! ## `detail_scraper.parse_detail` -/

/-- A feature section node: the texts of its `name` div and of its
`content` div. -/
structure SectionNode where
  nameTexts : List String
  contentTexts : List String
deriving DecidableEq

/-- A transaction-attribute `li` node: label-span texts and the texts of
the remaining spans. -/
structure TransItem where
  labelTexts : List String
  valueTexts : List String
deriving DecidableEq

/-- The parsed detail-page tree, abstracted as the node lists the xpath
queries of `parse_detail` return (each layout row is a list of columns,
each column a list of text chunks). -/
structure DetailTree where
  tagTexts : List String
  sections : List SectionNode
  transactionItems : List TransItem
  layoutRows : List (List (List String))
deriving DecidableEq

/-- A detail-page document: the raw decoded body (searched for marker
phrases with Python `in`) and the `etree.HTML` result (`none` when
parsing yields no tree). -/
structure HtmlDoc where
  raw : String
  tree : Option DetailTree

/-- `detail_scraper.parse_detail` (lines 107-164). -/
def parse_detail (doc : HtmlDoc) : Dict :=
  match doc.tree with
  | none => []
  | some tree =>
    if containsSub "登录查看更多房源信息" doc.raw
        || containsSub "需登录后查看完整信息" doc.raw then
      [("解析状态", "login_required")]
    else
      let tags := (tree.tagTexts.map pyStrip).filter (fun t => t ≠ "")
      let dd : Dict := []
      let dd := if tags ≠ [] then dictSet dd "房源标签" (String.intercalate " | " tags)
                else dd
      let dd := tree.sections.foldl
        (fun dd s =>
          let title := pyStrip (String.join s.nameTexts)
          let content := pyStrip (String.join s.contentTexts)
          if title ≠ "" ∧ content ≠ "" then dictSet dd title content else dd) dd
      let tp := tree.transactionItems.foldl
        (fun (acc : Dict × List String) item =>
          let label := pyStrip (String.join item.labelTexts)
          let value := pyStrip (String.join item.valueTexts)
          if label ≠ "" ∧ value ≠ "" then
            (dictSet acc.1 label value, acc.2 ++ [label ++ ":" ++ value])
          else acc)
        (dd, ([] : List String))
      let dd := tp.1
      let dd := if tp.2 ≠ [] then dictSet dd "交易属性" (String.intercalate " | " tp.2)
                else dd
      let layoutItems := ((tree.layoutRows.map
          (fun row => (row.map (fun col => pyStrip (String.join col))).filter
            (fun c => c ≠ ""))).filter (fun cols => cols ≠ [])).map
          (fun cols => String.intercalate " / " cols)
      let dd := if layoutItems ≠ [] then
                  dictSet dd "户型分间" (String.intercalate " ; " layoutItems)
                else dd
      dd

/-- A detail tree rich in extractable structures. -/
def c5Tree : DetailTree :=
  { tagTexts := ["近地铁", "满五年"],
    sections := [{ nameTexts := ["核心卖点"], contentTexts := ["户型方正，采光好"] }],
    transactionItems := [{ labelTexts := ["挂牌时间"], valueTexts := ["2023-01-01"] }],
    layoutRows := [[["客厅"], ["20平米"]]] }

/-- A body carrying a login marker together with the rich tree. -/
def c5Doc : HtmlDoc :=
  { raw := "<html><body>需登录后查看完整信息<div class=tags>近地铁</div></body></html>",
    tree := some c5Tree }

/-! ## `detail_scraper`: base rows, merging, CSV normalization -/

/-- `detail_scraper.filtrate`: keep exactly the characters the GBK codec
can encode.  GBK encodability is abstracted as a predicate on
characters; the loop appends each encodable character. -/
def filtrate (enc : Char → Bool) (data : String) : String :=
  String.mk (data.toList.filter enc)

/-- An encodability predicate accepting every character (used by
concrete witnesses). -/
def allowAll : Char → Bool := fun _ => true

/-- The `price` sub-dict of a listing JSON object. -/
structure Price where
  total_price : Option String
  unit_price : Option String
deriving DecidableEq

/-- One listing object of the input JSON consumed by the merge
orchestrator (shape produced by `main.extract`). -/
structure Info where
  title : Option String
  location : Option String
  details : Option Dict
  price : Option Price
  follow_count : Option String
  visit_count : Option String
  publish_time : Option String
  tags : Option (List String)
  link : Option String
deriving DecidableEq

def BASE_COLUMNS : List String :=
  ["标题", "地址", "户型", "面积", "朝向", "装修情况", "层数", "建造时间", "楼型",
   "总价", "每平米单价", "关注人数", "带看次数", "发布时间", "标签", "详情链接"]

def DETAIL_COLUMNS : List String :=
  ["房源标签", "核心卖点", "小区介绍", "周边配套", "交通出行", "税费解析",
   "权属抵押", "上次交易", "挂牌时间", "交易权属", "房屋用途", "房屋年限",
   "产权所属", "抵押信息", "交易属性", "户型分间"]

/-- `detail_scraper.build_base_row` (lines 179-201). -/
def build_base_row (info : Info) : Dict :=
  let details := info.details.getD []
  let price := info.price.getD { total_price := none, unit_price := none }
  [("标题", info.title.getD ""),
   ("地址", info.location.getD ""),
   ("户型", (dictGet details "configuration").getD ""),
   ("面积", (dictGet details "area").getD ""),
   ("朝向", (dictGet details "towards").getD ""),
   ("装修情况", (dictGet details "decorate").getD ""),
   ("层数", (dictGet details "storey").getD ""),
   ("建造时间", (dictGet details "period").getD ""),
   ("楼型", (dictGet details "categorie").getD ""),
   ("总价", price.total_price.getD ""),
   ("每平米单价", price.unit_price.getD ""),
   ("关注人数", info.follow_count.getD ""),
   ("带看次数", info.visit_count.getD ""),
   ("发布时间", info.publish_time.getD ""),
   ("标签", match info.tags with
            | some l => String.intercalate " | " l
            | none => ""),
   ("详情链接", info.link.getD "")]

/-- `detail_scraper.merge_detail` (lines 204-214): copy the parse-status
key when present, then write every known detail column, stripped and
GBK-filtered, defaulting to the empty string. -/
def merge_detail (enc : Char → Bool) (row detail_data : Dict) : Dict :=
  let row :=
    match dictGet detail_data "解析状态" with
    | some v => dictSet row "解析状态" v
    | none => row
  DETAIL_COLUMNS.foldl
    (fun r column =>
      dictSet r column (filtrate enc (pyStrip ((dictGet detail_data column).getD ""))))
    row

/-- Python `s[:120]`. -/
def pyTruncate (n : Nat) (s : String) : String :=
  String.mk (s.toList.take n)

/-- The per-record body of `detail_scraper.main`'s loop (lines 277-293):
build the base row; skip fetching when the detail link is empty;
otherwise merge the parsed detail or record the caught exception as a
failed status.  The second component records whether a fetch happened. -/
def processRecord (enc : Char → Bool) (fetchOutcome : Except String HtmlDoc)
    (info : Info) : Dict × Bool :=
  let row := build_base_row info
  let url := (dictGet row "详情链接").getD ""
  if url = "" then (row, false)
  else
    match fetchOutcome with
    | .ok doc => (merge_detail enc row (parse_detail doc), true)
    | .error e => (dictSet row "解析状态" (pyTruncate 120 ("failed: " ++ e)), true)

def HEADERS : List String := BASE_COLUMNS ++ DETAIL_COLUMNS ++ ["解析状态"]

/-- One column of `write_csv`'s row normalization:
`row.setdefault(column, '')` then GBK-filter the string value. -/
def csvStep (enc : Char → Bool) (r : Dict) (column : String) : Dict :=
  let r1 := if (dictGet r column).isSome then r else dictSet r column ""
  match dictGet r1 column with
  | some s => dictSet r1 column (filtrate enc s)
  | none => r1

/-- The row normalization `detail_scraper.write_csv` performs before
writing (lines 224-228). -/
def csvNormalizeRow (enc : Char → Bool) (row : Dict) : Dict :=
  HEADERS.foldl (csvStep enc) row

/-- The delay-window normalization of `detail_scraper.main` (lines
252-253): `min_delay = max(0.0, args.min_delay)`;
`max_delay = max(min_delay, args.max_delay)`.  Floats carry exact `max`
semantics here, modelled over `ℚ`. -/
def normalize_delays (minArg maxArg : ℚ) : ℚ × ℚ :=
  (max 0 minArg, max (max 0 minArg) maxArg)

/-- A listing object with populated fields but no detail link. -/
def c7Info : Info :=
  { title := some "精装两居室",
    location := some "某小区, 某区域",
    details := some [("configuration", "2室1厅"), ("area", "89平米")],
    price := some { total_price := some "500 万", unit_price := some "55000 元" },
    follow_count := some "3",
    visit_count := some "2",
    publish_time := some "今天发布",
    tags := some ["近地铁"],
    link := none }

/-- An arbitrary fetch outcome (never consulted for a linkless record). -/
def c7Doc : HtmlDoc := { raw := "", tree := none }

/-! ## Theorems -/

theorem dictGet_nil (k : String) : dictGet [] k = none := rfl

theorem dictGet_cons (p : String × String) (rest : Dict) (k : String) :
    dictGet (p :: rest) k = if p.1 = k then some p.2 else dictGet rest k := by
  by_cases h : p.1 = k
  · simp [dictGet, List.find?, h]
  · have hb : (p.1 == k) = false := beq_eq_false_iff_ne.mpr h
    simp [dictGet, List.find?, h, hb]

theorem dictGet_dictSet (d : Dict) (k k' v : String) :
    dictGet (dictSet d k v) k' = if k' = k then some v else dictGet d k' := by
  induction d with
  | nil =>
    by_cases h : k' = k
    · simp [dictSet, dictGet_cons, dictGet_nil, h]
    · have h2 : ¬ k = k' := fun hh => h hh.symm
      simp [dictSet, dictGet_cons, dictGet_nil, h, h2]
  | cons p rest ih =>
    by_cases hp : p.1 = k
    · by_cases h : k' = k
      · simp [dictSet, hp, dictGet_cons, h]
      · have h2 : ¬ k = k' := fun hh => h hh.symm
        have hpk : ¬ p.1 = k' := fun hh => h ((hp ▸ hh).symm)
        simp [dictSet, hp, dictGet_cons, h, h2, hpk]
    · by_cases hk : p.1 = k'
      · have hne : ¬ k' = k := fun hh => hp (hh ▸ hk)
        simp [dictSet, hp, dictGet_cons, hk, hne]
      · simp [dictSet, hp, dictGet_cons, hk, ih]

theorem dictGet_kwFold (key : String) (kws : List String) (detail : String)
    (res : Dict) (k : String) :
    dictGet (kwFold key kws detail res) k =
      if k = key ∧ matchesFeature kws detail = true then some detail
      else dictGet res k := by
  induction kws generalizing res with
  | nil => simp [kwFold, matchesFeature]
  | cons v kws ih =>
    have hstep : kwFold key (v :: kws) detail res
        = kwFold key kws detail
            (if containsSub v detail = true then dictSet res key detail else res) := rfl
    rw [hstep, ih]
    by_cases hc : containsSub v detail = true
    · by_cases hm : matchesFeature kws detail = true
      · by_cases hk : k = key <;>
          simp [matchesFeature, hc, hm, hk, dictGet_dictSet]
      · by_cases hk : k = key <;>
          simp [matchesFeature, hc, hm, hk, dictGet_dictSet]
    · by_cases hm : matchesFeature kws detail = true <;>
        simp [matchesFeature, hc, hm]

theorem dictGet_featsFold_notMem (feats : List (String × List String))
    (detail : String) (res : Dict) (k : String) (hk : ∀ p ∈ feats, p.1 ≠ k) :
    dictGet (featsFold feats detail res) k = dictGet res k := by
  induction feats generalizing res with
  | nil => simp [featsFold]
  | cons p feats ih =>
    have hp : p.1 ≠ k := hk p (by simp)
    have hrest : ∀ q ∈ feats, q.1 ≠ k := fun q hq => hk q (by simp [hq])
    simp only [featsFold, List.foldl_cons]
    rw [show (List.foldl (fun res kv => kwFold kv.1 kv.2 detail res) _ feats)
          = featsFold feats detail (kwFold p.1 p.2 detail res) from rfl,
        ih _ hrest, dictGet_kwFold]
    have hkp : ¬ k = p.1 := fun hh => hp hh.symm
    simp [hkp]

theorem dictGet_featsFold_mem (feats : List (String × List String))
    (key : String) (kws : List String) (detail : String) (res : Dict)
    (hmem : (key, kws) ∈ feats) (huniq : (feats.map Prod.fst).Nodup) :
    dictGet (featsFold feats detail res) key =
      if matchesFeature kws detail = true then some detail
      else dictGet res key := by
  induction feats generalizing res with
  | nil => cases hmem
  | cons p feats ih =>
    simp only [featsFold, List.foldl_cons]
    rw [show (List.foldl (fun res kv => kwFold kv.1 kv.2 detail res) _ feats)
          = featsFold feats detail (kwFold p.1 p.2 detail res) from rfl]
    rcases List.mem_cons.mp hmem with heq | hmem'
    · subst heq
      have huniq' : (key :: feats.map Prod.fst).Nodup := by simpa using huniq
      have hnot : ∀ q ∈ feats, q.1 ≠ key := by
        intro q hq hqk
        exact (List.nodup_cons.mp huniq').1
          (hqk ▸ List.mem_map_of_mem Prod.fst hq)
      rw [dictGet_featsFold_notMem feats detail _ key hnot, dictGet_kwFold]
      by_cases hm : matchesFeature kws detail = true <;> simp [hm]
    · have huniq' : (p.1 :: feats.map Prod.fst).Nodup := by simpa using huniq
      have hp : p.1 ≠ key := by
        intro hpk
        apply (List.nodup_cons.mp huniq').1
        rw [hpk]
        exact List.mem_map_of_mem Prod.fst hmem'
      rw [ih _ hmem' (List.nodup_cons.mp huniq').2, dictGet_kwFold]
      have hkp : ¬ key = p.1 := fun hh => hp hh.symm
      simp [hkp]

theorem keys_FEATURES_nodup : (FEATURES.map Prod.fst).Nodup := by decide

theorem dictGet_categoriseStep (key : String) (kws : List String)
    (detail : String) (res : Dict) (hmem : (key, kws) ∈ FEATURES) :
    dictGet (categoriseStep res detail) key =
      if matchesFeature kws detail = true then some detail
      else dictGet res key :=
  dictGet_featsFold_mem FEATURES key kws detail res hmem keys_FEATURES_nodup

theorem getLast?_cons_eq (a : α) (l : List α) :
    (a :: l).getLast? = some (l.getLast?.getD a) := by
  induction l generalizing a with
  | nil => rfl
  | cons b t ih =>
    rw [List.getLast?_cons_cons, ih b]
    simp

theorem dictGet_categorise_foldl (key : String) (kws : List String)
    (details : List String) (res : Dict) (hmem : (key, kws) ∈ FEATURES) :
    dictGet (details.foldl categoriseStep res) key =
      match (details.filter (fun d => matchesFeature kws d)).getLast? with
      | some x => some x
      | none => dictGet res key := by
  induction details generalizing res with
  | nil => simp
  | cons d ds ih =>
    simp only [List.foldl_cons, List.filter_cons]
    rw [ih (categoriseStep res d)]
    by_cases hd : matchesFeature kws d = true
    · simp only [hd, if_true]
      rw [getLast?_cons_eq]
      rcases hlast : (ds.filter (fun x => matchesFeature kws x)).getLast? with _ | x
      · simp [hlast, dictGet_categoriseStep key kws d res hmem, hd]
      · simp [hlast]
    · simp only [hd, if_false]
      rcases hlast : (ds.filter (fun x => matchesFeature kws x)).getLast? with _ | x
      · simp [hlast, dictGet_categoriseStep key kws d res hmem, hd]
      · simp [hlast]

/-- C4: for every attribute of the keyword table, the final `categorise`
map holds exactly the last segment that contains one of the attribute's
keywords (so a segment matching no keyword of the attribute never
populates it, and on multiple matches the later segment's raw text wins). -/
theorem claim_C4_categorise_lastMatchWins (details : List String)
    (key : String) (kws : List String) (hmem : (key, kws) ∈ FEATURES) :
    dictGet (categorise details) key =
      (details.filter (fun d => matchesFeature kws d)).getLast? := by
  rw [categorise, dictGet_categorise_foldl key kws details [] hmem]
  rcases (details.filter (fun d => matchesFeature kws d)).getLast? with _ | x <;> rfl

/-- Witness for C4: on a concrete segment list where two segments contain
the storey keyword, the later one is retained. -/
theorem claim_C4_witness :
    ("storey", ["层"]) ∈ FEATURES ∧
    dictGet (categorise ["2室1厅", "低层(共6层)", "精装", "高层"]) "storey"
      = (["2室1厅", "低层(共6层)", "精装", "高层"].filter
          (fun d => matchesFeature ["层"] d)).getLast? ∧
    dictGet (categorise ["2室1厅", "低层(共6层)", "精装", "高层"]) "storey"
      = some "高层" :=
  ⟨by decide,
   claim_C4_categorise_lastMatchWins _ "storey" ["层"] (by decide),
   by decide⟩

theorem ghRun_all_fail (outs : List Outcome) (o : Outcome)
    (hlast : outs.getLast? = some o) (hf : ∀ x ∈ outs, ghFail x = true) :
    ghRun outs = (.raisedExc (ghErr o), outs.length) := by
  induction outs with
  | nil => cases hlast
  | cons x rest ih =>
    rcases rest with _ | ⟨y, t⟩
    · have hx : x = o := by
        simpa using hlast
      subst hx
      rcases x with e | ⟨s, b⟩
      · rfl
      · have hs : 400 ≤ s ∧ s < 600 := by
          simpa [ghFail] using hf (.resp s b) (by simp)
        simp [ghRun, hs, ghErr]
    · have hlast' : (y :: t).getLast? = some o := by
        rwa [List.getLast?_cons_cons] at hlast
      have hf' : ∀ x ∈ y :: t, ghFail x = true := fun z hz => hf z (by simp [hz])
      have hih := ih hlast' hf'
      rcases x with e | ⟨s, b⟩
      · simp [ghRun, hih]
      · have hs : 400 ≤ s ∧ s < 600 := by
          simpa [ghFail] using hf (.resp s b) (by simp)
        simp [ghRun, hs, hih]

theorem ghRun_first_success (pre : List Outcome) (b : String) (post : List Outcome)
    (hf : ∀ x ∈ pre, ghFail x = true) :
    ghRun (pre ++ .resp 200 b :: post) = (.ok b, pre.length + 1) := by
  induction pre with
  | nil => simp [ghRun]
  | cons x pre ih =>
    have hih := ih (fun z hz => hf z (by simp [hz]))
    have hne : ((pre ++ Outcome.resp 200 b :: post).isEmpty) = false := by
      cases pre <;> simp
    rcases x with e | ⟨s, b'⟩
    · simp [ghRun, hne, hih]
    · have hs : 400 ≤ s ∧ s < 600 := by
        simpa [ghFail] using hf (.resp s b') (by simp)
      simp [ghRun, hs, hne, hih]

theorem rdRun_all_fail (outs : List Outcome) (acc : Option String)
    (hf : ∀ x ∈ outs, rdFailNB x = true) :
    rdRun outs acc =
      ((match lastExcOut acc outs with
        | some e => .raisedExc e
        | none => .exhausted), outs.length) := by
  induction outs generalizing acc with
  | nil => rcases acc with _ | e <;> rfl
  | cons x rest ih =>
    rcases x with e | ⟨s, b⟩
    · have hih := ih (some e) (fun z hz => hf z (by simp [hz]))
      simp [rdRun, lastExcOut, hih]
    · have hs : ¬ (s = 200 ∧ b ≠ "") := by
        have := hf (.resp s b) (by simp)
        rcases (by simpa [rdFailNB] using this : ¬ _ = 200 ∨ _ = "") with h | h
        · exact fun hc => h hc.1
        · exact fun hc => hc.2 h
      have hih := ih acc (fun z hz => hf z (by simp [hz]))
      simp [rdRun, lastExcOut, hs, hih]

theorem rdRun_first_success (pre : List Outcome) (b : String) (post : List Outcome)
    (acc : Option String) (hf : ∀ x ∈ pre, rdFailNB x = true)
    (hb : b ≠ "") (hnb : isBlocked b = false) :
    rdRun (pre ++ .resp 200 b :: post) acc = (.ok b, pre.length + 1) := by
  induction pre generalizing acc with
  | nil => simp [rdRun, hb, hnb]
  | cons x pre ih =>
    rcases x with e | ⟨s, b'⟩
    · have hih := ih (some e) (fun z hz => hf z (by simp [hz]))
      simp [rdRun, hih]
    · have hs : ¬ (s = 200 ∧ b' ≠ "") := by
        have := hf (.resp s b') (by simp)
        rcases (by simpa [rdFailNB] using this : ¬ _ = 200 ∨ _ = "") with h | h
        · exact fun hc => h hc.1
        · exact fun hc => hc.2 h
      have hih := ih acc (fun z hz => hf z (by simp [hz]))
      simp [rdRun, hs, hih]

theorem rdRun_blocked_abort (pre : List Outcome) (b : String) (post : List Outcome)
    (acc : Option String) (hf : ∀ x ∈ pre, rdFailNB x = true)
    (hb : b ≠ "") (hnb : isBlocked b = true) :
    rdRun (pre ++ .resp 200 b :: post) acc = (.blocked, pre.length + 1) := by
  induction pre generalizing acc with
  | nil => simp [rdRun, hb, hnb]
  | cons x pre ih =>
    rcases x with e | ⟨s, b'⟩
    · have hih := ih (some e) (fun z hz => hf z (by simp [hz]))
      simp [rdRun, hih]
    · have hs : ¬ (s = 200 ∧ b' ≠ "") := by
        have := hf (.resp s b') (by simp)
        rcases (by simpa [rdFailNB] using this : ¬ _ = 200 ∨ _ = "") with h | h
        · exact fun hc => h hc.1
        · exact fun hc => hc.2 h
      have hih := ih acc (fun z hz => hf z (by simp [hz]))
      simp [rdRun, hs, hih]

/-- Counterexample to C1 as stated: with 3 retries, a blocked body on the
first (non-final) attempt makes `request_detail` raise the blocked error
after exactly one attempt; it does not sleep and retry (which would have
returned the good body of attempt 2). -/
theorem claim_C1_counterexample :
    request_detail c1Outs = (.blocked, 1) ∧
    request_detail c1Outs ≠ (.ok "good page", 2) := by
  constructor
  · rfl
  · decide

/-- C1 amended: when an attempt of `request_detail` obtains a 200
non-empty body that the Guard classifies as blocked, the function raises
the blocked error immediately on that attempt — even when further
attempts remain — instead of treating it as a failed attempt to sleep
over and retry.  (Earlier attempts may have failed with exceptions,
non-200 statuses or empty bodies.) -/
theorem claim_C1_blocked_aborts_immediately (pre : List Outcome) (b : String)
    (post : List Outcome) (hf : ∀ x ∈ pre, rdFailNB x = true)
    (hb : b ≠ "") (hnb : isBlocked b = true) :
    request_detail (pre ++ .resp 200 b :: post) = (.blocked, pre.length + 1) :=
  rdRun_blocked_abort pre b post none hf hb hnb

/-- Witness for the amended C1: one failed attempt, then a blocked body
with one attempt remaining; the call aborts after the second attempt. -/
theorem claim_C1_witness :
    (∀ x ∈ [Outcome.exc "timeout"], rdFailNB x = true) ∧
    ("访问验证, 请稍后再试" ≠ "") ∧
    isBlocked "访问验证, 请稍后再试" = true ∧
    request_detail
        ([Outcome.exc "timeout"] ++ .resp 200 "访问验证, 请稍后再试" :: [.resp 200 "fine"])
      = (.blocked, 2) :=
  ⟨by decide, by decide, by decide,
   claim_C1_blocked_aborts_immediately [Outcome.exc "timeout"]
     "访问验证, 请稍后再试" [.resp 200 "fine"] (by decide) (by decide) (by decide)⟩

/-- Counterexample to C6 as stated: with 3 retries and every attempt
yielding a blocked body (a failed attempt per the spec's success
condition), `get_html` returns the blocked body as a success after one
attempt (it never consults the Guard or checks emptiness), and
`request_detail` raises after one attempt — neither performs exactly 3
attempts before failing. -/
theorem claim_C6_counterexample :
    isSuccessOutcome (Outcome.resp 200 "访问验证") = false ∧
    get_html c6Outs = (.ok "访问验证", 1) ∧
    request_detail c6Outs = (.blocked, 1) := by
  refine ⟨by decide, rfl, rfl⟩

/-- C6 amended: (1) `get_html` performs exactly `retries` attempts when
every attempt raises (network error or an HTTP error status 400-599,
the range `raise_for_status` covers) and then re-raises
the last error; (2) it returns the body at once on the first 200
non-empty unblocked response; (3) `request_detail` performs exactly
`retries` attempts when every attempt fails without a blocked body
(exception, non-200, or empty body) and then raises the last network
error if one occurred, else a generic exhausted error; (4) it returns
the body at once on the first 200 non-empty unblocked response.  A
blocked body instead aborts `request_detail` immediately, and `get_html`
returns any body whose status `raise_for_status` does not flag (below
400 or at/above 600) — blocked or empty — as a success. -/
theorem claim_C6_retry_exhaustion_and_immediate_success :
    (∀ (outs : List Outcome) (o : Outcome), outs.getLast? = some o →
      (∀ x ∈ outs, ghFail x = true) →
      get_html outs = (.raisedExc (ghErr o), outs.length)) ∧
    (∀ (pre : List Outcome) (b : String) (post : List Outcome),
      (∀ x ∈ pre, ghFail x = true) →
      get_html (pre ++ .resp 200 b :: post) = (.ok b, pre.length + 1)) ∧
    (∀ outs : List Outcome, (∀ x ∈ outs, rdFailNB x = true) →
      request_detail outs =
        ((match lastExcOut none outs with
          | some e => .raisedExc e
          | none => .exhausted), outs.length)) ∧
    (∀ (pre : List Outcome) (b : String) (post : List Outcome),
      (∀ x ∈ pre, rdFailNB x = true) → b ≠ "" → isBlocked b = false →
      request_detail (pre ++ .resp 200 b :: post) = (.ok b, pre.length + 1)) :=
  ⟨fun outs o hlast hf => ghRun_all_fail outs o hlast hf,
   fun pre b post hf => ghRun_first_success pre b post hf,
   fun outs hf => rdRun_all_fail outs none hf,
   fun pre b post hf hb hnb => rdRun_first_success pre b post none hf hb hnb⟩

/-- Witness for the amended C6, instantiating all four parts on concrete
attempt lists. -/
theorem claim_C6_witness :
    get_html [Outcome.exc "timeout", .resp 500 "oops", .exc "conn reset"]
      = (.raisedExc "conn reset", 3) ∧
    get_html [Outcome.exc "timeout", .resp 200 "<html>listings</html>"]
      = (.ok "<html>listings</html>", 2) ∧
    request_detail [Outcome.resp 404 "nf", .exc "timeout", .resp 200 ""]
      = (.raisedExc "timeout", 3) ∧
    request_detail [Outcome.resp 200 "", .resp 200 "detail body", .exc "later"]
      = (.ok "detail body", 2) :=
  ⟨claim_C6_retry_exhaustion_and_immediate_success.1
     [Outcome.exc "timeout", .resp 500 "oops", .exc "conn reset"]
     (.exc "conn reset") (by decide) (by decide),
   claim_C6_retry_exhaustion_and_immediate_success.2.1
     [Outcome.exc "timeout"] "<html>listings</html>" [] (by decide),
   claim_C6_retry_exhaustion_and_immediate_success.2.2.1
     [Outcome.resp 404 "nf", .exc "timeout", .resp 200 ""] (by decide),
   claim_C6_retry_exhaustion_and_immediate_success.2.2.2
     [Outcome.resp 200 ""] "detail body" [.exc "later"]
     (by decide) (by decide) (by decide)⟩

theorem warmupStep_ok (o : Outcome) : warmupStep o = .ok () := by
  cases o <;> rfl

theorem warmupCount_le (calls : List CallSpec) (st : List String) (d : String) :
    warmupCount d (processCalls calls st).1 ≤ if d ∈ st then 0 else 1 := by
  induction calls generalizing st with
  | nil => simp [processCalls, warmupCount]
  | cons c rest ih =>
    by_cases hmem : c.domain ∈ st
    · have hcall : request_detail_call st c
          = .ok (request_detail c.outcomes, st, false) := by
        simp [request_detail_call, hmem]
      simp only [processCalls, hcall]
      have := ih st
      simpa [warmupCount] using this
    · have hcall : request_detail_call st c
          = .ok (request_detail c.outcomes, st ++ [c.domain], true) := by
        simp [request_detail_call, hmem, warmupStep_ok c.warmupOutcome]
      simp only [processCalls, hcall]
      have hrec := ih (st ++ [c.domain])
      by_cases hd : c.domain = d
      · subst hd
        have hin : c.domain ∈ st ++ [c.domain] := by simp
        rw [if_pos hin] at hrec
        simp [warmupCount, hmem, Nat.le_antisymm hrec (Nat.zero_le _)]
      · simp only [warmupCount, hd, false_and, if_false, Nat.zero_add]
        by_cases hst : d ∈ st
        · have hin : d ∈ st ++ [c.domain] := List.mem_append_left _ hst
          rw [if_pos hst]
          rw [if_pos hin] at hrec
          exact hrec
        · have hnin : d ∉ st ++ [c.domain] := by
            intro h
            rcases List.mem_append.mp h with h | h
            · exact hst h
            · exact hd ((by simpa using h : d = c.domain)).symm
          rw [if_neg hst]
          rw [if_neg hnin] at hrec
          exact hrec

/-- C8: across any sequence of `request_detail` calls starting from the
fresh process state, (1) a warm-up GET for a given scheme+host domain is
issued at most once, regardless of whether it succeeded; (2) the warm-up
`try`/`except` swallows every outcome, so no warm-up network exception
ever propagates; and (3) the entire observable behaviour of the call
sequence is unchanged if every call's warm-up outcome is replaced
arbitrarily. -/
theorem claim_C8_warmup_once_and_swallowed :
    (∀ (calls : List CallSpec) (d : String),
        warmupCount d (processCalls calls []).1 ≤ 1) ∧
    (∀ o : Outcome, warmupStep o = .ok ()) ∧
    (∀ (calls : List CallSpec) (st : List String) (f : CallSpec → Outcome),
        processCalls (calls.map (fun c => { c with warmupOutcome := f c })) st
          = processCalls calls st) := by
  refine ⟨fun calls d => ?_, warmupStep_ok, fun calls st f => ?_⟩
  · have h := warmupCount_le calls [] d
    simpa using h
  · induction calls generalizing st with
    | nil => rfl
    | cons c rest ih =>
      by_cases hmem : c.domain ∈ st <;>
        simp [processCalls, request_detail_call, hmem,
              warmupStep_ok, ih]

/-- C2 (code bug): on a page whose listing item lacks the pipe-delimited
address blob, `extract` does not produce a record with an empty details
field — `categorise(None)` raises `TypeError`, aborting the whole page. -/
theorem claim_C2_missing_blob_raises :
    c2Item.addressTexts = [] ∧
    extract (some [c2Item]) = .error "TypeError: NoneType object is not iterable" :=
  ⟨rfl, rfl⟩

/-- Counterexample to C3 as stated: on a page with zero listing-item
nodes, `extract` returns the `None` sentinel, not the empty sequence. -/
theorem claim_C3_counterexample :
    extract (some []) = .ok none ∧
    ((Except.ok none : Except String (Option (List InfoRec)))
      ≠ .ok (some [])) :=
  ⟨rfl, by simp⟩

/-- C3 amended: on a results page in which zero listing-item structural
nodes are found, `extract` returns `None` (Python's absent-value
sentinel, which the orchestrator treats as a page-level failure), and
does not raise. -/
theorem claim_C3_zero_items_returns_none (liList : List ListingItem)
    (h : liList = []) :
    extract (some liList) = .ok none := by
  subst h
  rfl

/-- Witness for the amended C3. -/
theorem claim_C3_witness :
    ([] : List ListingItem) = [] ∧
    extract (some ([] : List ListingItem)) = .ok none :=
  ⟨rfl, claim_C3_zero_items_returns_none [] rfl⟩

/-- C5: whenever the raw body contains either login-required marker
phrase (and `etree.HTML` produced a tree, which holds for any non-empty
body), `parse_detail` short-circuits to the singleton record
`{解析状态: login_required}` — no other key is produced, whatever
extractable structures the tree carries. -/
theorem claim_C5_login_required_short_circuit (doc : HtmlDoc) (t : DetailTree)
    (ht : doc.tree = some t)
    (hm : (containsSub "登录查看更多房源信息" doc.raw
            || containsSub "需登录后查看完整信息" doc.raw) = true) :
    parse_detail doc = [("解析状态", "login_required")] := by
  simp [parse_detail, ht, hm]

/-- Witness for C5: on the concrete marker-carrying document with
extractable structures present, the result is exactly the login record. -/
theorem claim_C5_witness :
    c5Doc.tree = some c5Tree ∧
    (containsSub "登录查看更多房源信息" c5Doc.raw
      || containsSub "需登录后查看完整信息" c5Doc.raw) = true ∧
    parse_detail c5Doc = [("解析状态", "login_required")] :=
  ⟨rfl, by decide,
   claim_C5_login_required_short_circuit c5Doc c5Tree rfl (by decide)⟩

/-- C9: for every pair of `--min-delay`/`--max-delay` values, the
effective window satisfies `0 ≤ min ≤ max`, with `min = max(0, given
min)` and `max = max(min, given max)`. -/
theorem claim_C9_delay_window_wellformed (a b : ℚ) :
    0 ≤ (normalize_delays a b).1 ∧
    (normalize_delays a b).1 ≤ (normalize_delays a b).2 ∧
    (normalize_delays a b).1 = max 0 a ∧
    (normalize_delays a b).2 = max (max 0 a) b :=
  ⟨le_max_left 0 a, le_max_left _ b, rfl, rfl⟩

/-- Witness for C9 at a malformed pair (negative min, max below min). -/
theorem claim_C9_witness :
    (normalize_delays (-2) (-5)).1 = 0 ∧ (normalize_delays (-2) (-5)).2 = 0 ∧
    0 ≤ (normalize_delays (-2) (-5)).1 ∧
    (normalize_delays (-2) (-5)).1 ≤ (normalize_delays (-2) (-5)).2 :=
  ⟨by norm_num [normalize_delays], by norm_num [normalize_delays],
   (claim_C9_delay_window_wellformed (-2) (-5)).1,
   (claim_C9_delay_window_wellformed (-2) (-5)).2.1⟩

theorem dictGet_setFold_notMem (f : String → String) (c : String) :
    ∀ (cols : List String) (r : Dict), c ∉ cols →
      dictGet (cols.foldl (fun r col => dictSet r col (f col)) r) c = dictGet r c := by
  intro cols
  induction cols with
  | nil => intro r _; rfl
  | cons c' cols ih =>
    intro r hc
    have hc' : ¬ c = c' := fun h => hc (by simp [h])
    have hrest : c ∉ cols := fun h => hc (by simp [h])
    simp only [List.foldl_cons]
    rw [ih _ hrest, dictGet_dictSet]
    simp [hc']

theorem dictGet_setFold_mem (f : String → String) (c : String) :
    ∀ (cols : List String) (r : Dict), c ∈ cols → cols.Nodup →
      dictGet (cols.foldl (fun r col => dictSet r col (f col)) r) c = some (f c) := by
  intro cols
  induction cols with
  | nil => intro r hc _; cases hc
  | cons c' cols ih =>
    intro r hc hu
    simp only [List.foldl_cons]
    rcases List.mem_cons.mp hc with heq | hmem
    · subst heq
      rw [dictGet_setFold_notMem f c cols _ (List.nodup_cons.mp hu).1,
          dictGet_dictSet]
      simp
    · exact ih _ hmem (List.nodup_cons.mp hu).2

theorem DETAIL_COLUMNS_nodup : DETAIL_COLUMNS.Nodup := by decide

/-- C10: after `merge_detail`, the row maps each of the 16 known detail
columns to a string: the GBK-filtered, whitespace-stripped extracted
value when the detail map has the column, and the empty string when it
is absent. -/
theorem claim_C10_merge_fills_every_detail_column (enc : Char → Bool)
    (row detail_data : Dict) (column : String) (hc : column ∈ DETAIL_COLUMNS) :
    dictGet (merge_detail enc row detail_data) column
      = some (filtrate enc (pyStrip ((dictGet detail_data column).getD ""))) ∧
    (dictGet detail_data column = none →
      dictGet (merge_detail enc row detail_data) column = some "") := by
  have h1 : dictGet (merge_detail enc row detail_data) column
      = some (filtrate enc (pyStrip ((dictGet detail_data column).getD ""))) := by
    unfold merge_detail
    rcases hst : dictGet detail_data "解析状态" with _ | v <;>
      simp only [hst] <;>
      exact dictGet_setFold_mem _ column DETAIL_COLUMNS _ hc DETAIL_COLUMNS_nodup
  refine ⟨h1, fun h => ?_⟩
  rw [h1, h]
  rfl

/-- Witness for C10: a present column is stripped and kept; an absent
column (on the same map) comes out as the empty string. -/
theorem claim_C10_witness :
    "挂牌时间" ∈ DETAIL_COLUMNS ∧
    dictGet (merge_detail allowAll [] [("挂牌时间", " 2023-01-01 ")]) "挂牌时间"
      = some "2023-01-01" ∧
    "核心卖点" ∈ DETAIL_COLUMNS ∧
    dictGet (merge_detail allowAll [] [("挂牌时间", " 2023-01-01 ")]) "核心卖点"
      = some "" :=
  ⟨by decide,
   ((claim_C10_merge_fills_every_detail_column allowAll []
      [("挂牌时间", " 2023-01-01 ")] "挂牌时间" (by decide)).1).trans (by decide),
   by decide,
   (claim_C10_merge_fills_every_detail_column allowAll []
      [("挂牌时间", " 2023-01-01 ")] "核心卖点" (by decide)).2 (by decide)⟩

theorem dictGet_csvStep (enc : Char → Bool) (r : Dict) (c x : String) :
    dictGet (csvStep enc r c) x =
      if x = c then some (filtrate enc ((dictGet r c).getD "")) else dictGet r x := by
  rcases h : dictGet r c with _ | s
  · have h2 : dictGet (dictSet r c "") c = some "" := by
      rw [dictGet_dictSet]
      simp
    simp only [csvStep, h, h2, Option.isSome_none, Bool.false_eq_true, if_false,
      Option.getD_none]
    rw [dictGet_dictSet]
    by_cases hx : x = c
    · simp [hx]
    · simp [hx, dictGet_dictSet]
  · simp only [csvStep, h, Option.isSome_some, if_true, Option.getD_some]
    exact dictGet_dictSet r c x (filtrate enc s)

theorem dictGet_csvFold_notMem (enc : Char → Bool) (cols : List String)
    (r : Dict) (x : String) (hx : x ∉ cols) :
    dictGet (cols.foldl (csvStep enc) r) x = dictGet r x := by
  induction cols generalizing r with
  | nil => rfl
  | cons c cols ih =>
    have hxc : ¬ x = c := fun hh => hx (by simp [hh])
    have hrest : x ∉ cols := fun hh => hx (by simp [hh])
    simp only [List.foldl_cons]
    rw [ih _ hrest, dictGet_csvStep]
    simp [hxc]

theorem dictGet_csvNormalize_status (enc : Char → Bool) (row : Dict) :
    dictGet (csvNormalizeRow enc row) "解析状态"
      = some (filtrate enc ((dictGet row "解析状态").getD "")) := by
  have hb : "解析状态" ∉ BASE_COLUMNS := by decide
  have hd : "解析状态" ∉ DETAIL_COLUMNS := by decide
  unfold csvNormalizeRow HEADERS
  rw [List.foldl_append, List.foldl_append]
  simp only [List.foldl_cons, List.foldl_nil]
  rw [dictGet_csvStep]
  rw [dictGet_csvFold_notMem enc DETAIL_COLUMNS _ _ hd,
      dictGet_csvFold_notMem enc BASE_COLUMNS _ _ hb]
  simp

set_option maxRecDepth 10000 in
/-- Counterexample to C7 as stated: for a record with no detail link,
the produced row's status column does not indicate "skipped" — no status
is set at all, and the written CSV carries the empty string there. -/
theorem claim_C7_counterexample :
    (processRecord allowAll (.ok c7Doc) c7Info).2 = false ∧
    dictGet (processRecord allowAll (.ok c7Doc) c7Info).1 "解析状态" ≠ some "skipped" ∧
    dictGet (csvNormalizeRow allowAll (processRecord allowAll (.ok c7Doc) c7Info).1)
        "解析状态" = some "" := by
  refine ⟨rfl, by decide, by decide⟩

set_option maxRecDepth 10000 in
/-- C7 amended: for a record whose detail link is empty or absent, the
orchestrator produces the base row unchanged (all 16 base columns
present, populated from the record), performs no fetch, and sets no
status value — the status cell is left unset and becomes the empty
string (not "skipped") when `write_csv` normalizes the row. -/
theorem claim_C7_no_link_skips_without_fetch (enc : Char → Bool)
    (fetchOutcome : Except String HtmlDoc) (info : Info)
    (h : info.link = none ∨ info.link = some "") :
    processRecord enc fetchOutcome info = (build_base_row info, false) ∧
    dictGet (build_base_row info) "解析状态" = none ∧
    (BASE_COLUMNS.all (fun c => (dictGet (build_base_row info) c).isSome)) = true ∧
    dictGet (csvNormalizeRow enc (build_base_row info)) "解析状态" = some "" := by
  have hlink : dictGet (build_base_row info) "详情链接" = some (info.link.getD "") := by
    simp [build_base_row, dictGet_cons]
  have hurl : (dictGet (build_base_row info) "详情链接").getD "" = "" := by
    rcases h with h | h <;> rw [hlink] <;> simp [h]
  have hstat : dictGet (build_base_row info) "解析状态" = none := by
    simp [build_base_row, dictGet_cons, dictGet_nil]
  refine ⟨?_, hstat, ?_, ?_⟩
  · simp [processRecord, hurl]
  · simp [BASE_COLUMNS, build_base_row, dictGet_cons]
  · rw [dictGet_csvNormalize_status, hstat]
    rfl

/-- Witness for the amended C7 on the concrete linkless record. -/
theorem claim_C7_witness :
    (c7Info.link = none ∨ c7Info.link = some "") ∧
    processRecord allowAll (.error "never fetched") c7Info
      = (build_base_row c7Info, false) ∧
    dictGet (build_base_row c7Info) "解析状态" = none ∧
    (BASE_COLUMNS.all (fun c => (dictGet (build_base_row c7Info) c).isSome)) = true ∧
    dictGet (csvNormalizeRow allowAll (build_base_row c7Info)) "解析状态" = some "" :=
  ⟨Or.inl rfl,
   (claim_C7_no_link_skips_without_fetch allowAll (.error "never fetched") c7Info
      (Or.inl rfl)).1,
   (claim_C7_no_link_skips_without_fetch allowAll (.error "never fetched") c7Info
      (Or.inl rfl)).2.1,
   (claim_C7_no_link_skips_without_fetch allowAll (.error "never fetched") c7Info
      (Or.inl rfl)).2.2.1,
   (claim_C7_no_link_skips_without_fetch allowAll (.error "never fetched") c7Info
      (Or.inl rfl)).2.2.2⟩

end Lianjia
